import Mathlib

/-!
Shallow embedding of the webhook bot's core logic (`src/api/webhook.ts`):
the Notion snapshot reader and formatter, the document-mutation tools with
their try/catch error handling, the agent tool-use loop, and the per-user
pending-issue confirmation state machine inside `generateReply`.

External effects (Notion fetches, GitHub issue creation, model calls,
`Date.now()`) are modelled as explicit oracle fields of environment
structures; a thrown JS exception is an `Except.error`, and a resolved
`fetch` is an `Except.ok` carrying the HTTP response (note: `fetch` only
rejects on network errors — a non-2xx status still resolves).
-/

/-- One rendered Notion block: `interface NotionBlock { id; type; text }`. -/
structure NotionBlock where
  id : String
  type : String
  text : String
deriving DecidableEq, Repr

/-- A raw block as returned by the Notion API, flattened to the fields
`blockToText` actually reads: the block `type`, the `checked` flag of a
`to_do` payload, and the `rich_text` array (already projected to the
`plain_text` of each run; `none` when the payload has no `rich_text`). -/
structure RawBlock where
  id : String
  type : String
  checked : Bool := false
  rich_text : Option (List String) := none
deriving DecidableEq, Repr

/-- `extractText(richText)`: joins the plain-text runs, `""` when absent. -/
def extractText : Option (List String) → String
  | none => ""
  | some l => String.join l

/-- The `richTextTypes` list of `blockToText`. -/
def richTextTypes : List String :=
  ["paragraph", "heading_1", "heading_2", "heading_3", "bulleted_list_item",
   "numbered_list_item", "quote", "callout", "toggle"]

/-- `blockToText(block)`: branch per block kind. -/
def blockToText (block : RawBlock) : NotionBlock :=
  let type := block.type
  let text :=
    if type = "to_do" then
      (if block.checked then "[完了] " else "[未完了] ") ++ extractText block.rich_text
    else if richTextTypes.contains type && block.rich_text.isSome then
      extractText block.rich_text
    else if type = "code" && block.rich_text.isSome then
      extractText block.rich_text
    else if type = "divider" then
      "---"
    else
      "(" ++ type ++ "ブロック)"
  { id := block.id, type := type, text := text }

/-- One page of the paginated children listing: its `results` array and the
`has_more` flag (when `has_more` is true the store also supplies a
`next_cursor` leading to the next page; pages are listed in cursor order). -/
structure Page where
  results : List RawBlock
  has_more : Bool
deriving DecidableEq, Repr

/-- `fetchAllBlocks()`: do-while over pages — convert each result of the
current page, then follow `next_cursor` while `has_more` holds. -/
def fetchAllBlocks : List Page → List NotionBlock
  | [] => []
  | p :: rest =>
      p.results.map blockToText ++ (if p.has_more then fetchAllBlocks rest else [])

/-- A well-formed paginated listing: at least one page, every page but the
last reports `has_more` with a cursor to the next, the last reports no
continuation. -/
def wellPaged : List Page → Bool
  | [] => false
  | p :: rest => if rest.isEmpty then !p.has_more else p.has_more && wellPaged rest

/-- The rendering of one block inside `formatBlocksForPrompt`. -/
def lineOf (b : NotionBlock) : String :=
  "[" ++ b.id ++ "] (" ++ b.type ++ ") " ++ b.text

/-- `formatBlocksForPrompt(blocks)`: empty sentinel, or one rendered line
per block joined by newlines. -/
def formatBlocksForPrompt (blocks : List NotionBlock) : String :=
  if blocks.length = 0 then "(ページは空です)"
  else String.intercalate "\n" (blocks.map lineOf)

/-- `getPageUrl()`: the Notion URL with every dash of the page id removed
(`notionPageId.replace` with a global dash pattern and empty replacement). -/
def getPageUrl (pageId : String) : String :=
  "https://www.notion.so/" ++ String.mk (pageId.data.filter (fun c => c ≠ '-'))

/-- An HTTP response a `fetch` resolved with (only the status matters to
this code — none of the mutator calls ever read it). -/
structure HttpResponse where
  status : Nat
deriving DecidableEq, Repr

/-- The JSON body of the block GET inside `updateBlock`, projected to the
single field read: `block.type` (`none` models `undefined`, e.g. when the
store answered with a not-found error object). -/
structure GotBlock where
  type : Option String
deriving DecidableEq, Repr

/-- Oracle for the document store: one field per distinct `fetch` call
shape used by the mutators. `Except.error e` models a rejected promise
(network failure) with message `e`; `Except.ok` models any resolved
response, whatever its status. -/
structure MutatorEnv where
  pageId : String
  appendFetch : List String → Except String HttpResponse
  getBlockFetch : String → Except String GotBlock
  patchFetch : String → Option String → String → Except String HttpResponse
  deleteFetch : String → Except String HttpResponse

/-- `appendBlocks(texts)`: one PATCH of the children built from `texts`;
the response is awaited but never inspected. -/
def appendBlocks (env : MutatorEnv) (texts : List String) : Except String Unit :=
  (env.appendFetch texts).map fun _ => ()

/-- `updateBlock(blockId, text)`: GET the block to learn its kind, then
PATCH the rich text under that kind; neither response status is checked. -/
def updateBlock (env : MutatorEnv) (blockId text : String) : Except String Unit := do
  let block ← env.getBlockFetch blockId
  let _ ← env.patchFetch blockId block.type text
  pure ()

/-- `deleteBlock(blockId)`: one DELETE; the response is never inspected. -/
def deleteBlock (env : MutatorEnv) (blockId : String) : Except String Unit :=
  (env.deleteFetch blockId).map fun _ => ()

/-- The `input: any` of a tool call, flattened to the fields the switch
reads. -/
structure ToolInput where
  texts : List String := []
  block_id : String := ""
  text : String := ""
deriving DecidableEq, Repr

/-- The body of `executeTool`'s `try` block: the switch over tool names,
each arm awaiting its mutator and producing the success string. -/
def executeToolTry (env : MutatorEnv) (name : String) (input : ToolInput) :
    Except String String :=
  if name = "append_to_page" then do
    let _ ← appendBlocks env input.texts
    pure ("追加完了。ページURL: " ++ getPageUrl env.pageId)
  else if name = "update_block" then do
    let _ ← updateBlock env input.block_id input.text
    pure ("更新完了。ページURL: " ++ getPageUrl env.pageId)
  else if name = "delete_block" then do
    let _ ← deleteBlock env input.block_id
    pure ("削除完了。ページURL: " ++ getPageUrl env.pageId)
  else
    pure ("不明なツール: " ++ name)

/-- `executeTool(name, input)`: the try/catch — any thrown error becomes
the string `エラー: <message>`. -/
def executeTool (env : MutatorEnv) (name : String) (input : ToolInput) : String :=
  match executeToolTry env name input with
  | Except.ok s => s
  | Except.error e => "エラー: " ++ e

/-- One content block of a model response. -/
inductive ContentBlock where
  | text (t : String)
  | toolUse (tid name : String) (input : ToolInput)
deriving DecidableEq, Repr

/-- A model response: its `stop_reason` and `content` array. -/
structure ModelResponse where
  stop_reason : String
  content : List ContentBlock
deriving DecidableEq, Repr

/-- A tool-use request extracted from a response's content. -/
structure ToolUseReq where
  tid : String
  name : String
  input : ToolInput
deriving DecidableEq, Repr

/-- The tool-use blocks of a content array, in content order (the loop's
`for (const block of response.content) if (block.type === "tool_use")`). -/
def toolUseBlocks (content : List ContentBlock) : List ToolUseReq :=
  content.filterMap fun b =>
    match b with
    | ContentBlock.toolUse tid name input => some ⟨tid, name, input⟩
    | _ => none

/-- Whether a content block is a text block. -/
def isTextBlock : ContentBlock → Bool
  | ContentBlock.text _ => true
  | _ => false

/-- `response.content.find((b) => b.type === "text")?.text ?? fallback`. -/
def extractAnswer (r : ModelResponse) : String :=
  match r.content.find? isTextBlock with
  | some (ContentBlock.text t) => t
  | _ => "すみません、応答を生成できませんでした。"

/-- An externally visible event of the agent loop: one tool execution
(with its result string), or one model invocation. -/
inductive AgentEvent where
  | toolExec (name : String) (input : ToolInput) (result : String)
  | modelCall
deriving DecidableEq, Repr

/-- The execution event of one tool-use request. -/
def execEventOf (menv : MutatorEnv) (t : ToolUseReq) : AgentEvent :=
  AgentEvent.toolExec t.name t.input (executeTool menv t.name t.input)

/-- The `while (response.stop_reason === "tool_use")` loop, driven by the
scripted list of model responses: `r` is the response just received and
`rest` the script for subsequent calls. While the stop reason is
`tool_use`, every tool-use block of the response is executed in content
order, then the model is called again. Returns the final answer (`none`
when the script is exhausted, i.e. the next model call fails) and the
ordered event trace. -/
def agentLoop (menv : MutatorEnv) (r : ModelResponse) (rest : List ModelResponse) :
    Option String × List AgentEvent :=
  if r.stop_reason = "tool_use" then
    let execs := (toolUseBlocks r.content).map (execEventOf menv)
    match rest with
    | [] => (none, execs ++ [AgentEvent.modelCall])
    | r2 :: rest2 =>
      let p := agentLoop menv r2 rest2
      (p.1, execs ++ AgentEvent.modelCall :: p.2)
  else
    (some (extractAnswer r), [])

/-- The parsed result of `judgeIfIssue` (parse failure already absorbed
into `is_issue := false`). -/
structure Judgment where
  is_issue : Bool
  app_name : String := ""
  issue_title : String := ""
  issue_body : String := ""
  manus_instruction : String := ""
  confirm_message : String := ""
deriving DecidableEq, Repr

/-- One pending issue proposal, as stored in `pendingIssues[userId]`. -/
structure PendingIssue where
  app_name : String
  repo : String
  issue_title : String
  issue_body : String
  manus_instruction : String
  expires_at : Nat
deriving DecidableEq, Repr

/-- The `pendingIssues` object: key/value pairs in insertion order. -/
abbrev PendingMap := List (String × PendingIssue)

/-- Property lookup `pendingIssues[userId]`. -/
def lookupP : PendingMap → String → Option PendingIssue
  | [], _ => none
  | (k, v) :: rest, u => if k = u then some v else lookupP rest u

/-- Property assignment `pendingIssues[userId] = v`: replaces the value in
place when the key exists, appends otherwise. -/
def setP : PendingMap → String → PendingIssue → PendingMap
  | [], u, v => [(u, v)]
  | (k, w) :: rest, u, v => if k = u then (u, v) :: rest else (k, w) :: setP rest u v

/-- `delete pendingIssues[userId]`. -/
def delP : PendingMap → String → PendingMap
  | [], _ => []
  | (k, w) :: rest, u => if k = u then rest else (k, w) :: delP rest u

/-- The JS-object invariant: keys are pairwise distinct. -/
abbrev keysNodup (m : PendingMap) : Prop := (m.map Prod.fst).Nodup

/-- The `yesPatterns` array. -/
def yesPatterns : List String :=
  ["はい", "yes", "そうして", "お願い", "作って", "よろしく", "いいよ", "ええよ"]

/-- The `noPatterns` array. -/
def noPatterns : List String :=
  ["いいえ", "no", "やめて", "キャンセル", "違う", "ちがう"]

/-- JS `s.includes(pat)`: `pat` occurs contiguously in `s`. -/
def strIncl (s pat : String) : Bool :=
  (List.range (s.toList.length + 1)).any fun i => pat.toList.isPrefixOf (s.toList.drop i)

/-- `yesPatterns.some((p) => userMessage.includes(p))`. -/
def isYesMsg (m : String) : Bool := yesPatterns.any fun p => strIncl m p

/-- `noPatterns.some((p) => userMessage.includes(p))`. -/
def isNoMsg (m : String) : Bool := noPatterns.any fun p => strIncl m p

/-- `APP_REPO_MAP` — the fixed app-name-to-repository registry. -/
def APP_REPO_MAP : String → Option String := fun name =>
  if name = "マルタギルド" then some "marta-guild"
  else if name = "満願寺御朱印帳" then some "manganji-stamp"
  else if name = "モノハブ" then some "monohub"
  else if name = "推し活" then some "oshi-katsu"
  else if name = "目標達成部" then some "mokuhyo-tassei-bu"
  else if name = "あちらさまからです" then some "achirasama"
  else if name = "ハッピー鑑定士" then some "happykantei"
  else if name = "満願寺どっち" then some "manganji-stamp"
  else none

/-- The pending proposal stored on a successful classification:
`expires_at = Date.now() + 5 * 60 * 1000`. -/
def mkPending (j : Judgment) (repo : String) (now : Nat) : PendingIssue :=
  { app_name := j.app_name, repo := repo, issue_title := j.issue_title,
    issue_body := j.issue_body, manus_instruction := j.manus_instruction,
    expires_at := now + 5 * 60 * 1000 }

/-- Environment of one `generateReply` turn: the clock, the classifier's
parsed answer, the GitHub issue-creation outcome per argument triple, the
Notion listing, the scripted agent-loop model responses, and the document
store oracle. -/
structure Env where
  now : Nat
  judgment : Judgment
  createIssue : String → String → String → Except String String
  pages : List Page
  responses : List ModelResponse
  menv : MutatorEnv

/-- Observable outcome of one `generateReply` turn: the reply (`none` when
an uncaught model-call failure aborts the turn), the pending map after the
turn, the GitHub issue-creation calls (repo, title, body) in order, how
many classifier calls ran, the agent-loop event trace, whether the Notion
snapshot was fetched, and the prompt built from it. -/
structure ReplyOutcome where
  reply : Option String
  pending : PendingMap
  issueCalls : List (String × String × String)
  judgeCalls : Nat
  agentEvents : List AgentEvent
  snapshotFetched : Bool
  prompt : Option String
deriving DecidableEq, Repr

/-- The behavioural part of an outcome — everything except the stored
pending map. -/
def obs (r : ReplyOutcome) :
    Option String × List (String × String × String) × Nat × List AgentEvent ×
      Bool × Option String :=
  (r.reply, r.issueCalls, r.judgeCalls, r.agentEvents, r.snapshotFetched, r.prompt)

/-- The tail of `generateReply` from the Notion-conversation section: fetch
the snapshot, build the prompt, run the first model call and the tool-use
loop. Reached only after one `judgeIfIssue` call. -/
def agentPath (env : Env) (userMessage : String) (pend : PendingMap) : ReplyOutcome :=
  let blocks := fetchAllBlocks env.pages
  let notionContent := formatBlocksForPrompt blocks
  let prompt :=
    "【Notionページの現在の内容】\n" ++ notionContent ++
      "\n\n【ユーザーのメッセージ】\n" ++ userMessage
  match env.responses with
  | [] =>
    { reply := none, pending := pend, issueCalls := [], judgeCalls := 1,
      agentEvents := [AgentEvent.modelCall], snapshotFetched := true,
      prompt := some prompt }
  | r :: rest =>
    let p := agentLoop env.menv r rest
    { reply := p.1, pending := pend, issueCalls := [], judgeCalls := 1,
      agentEvents := AgentEvent.modelCall :: p.2, snapshotFetched := true,
      prompt := some prompt }

/-- The tail of `generateReply` from the `isNo` check onward, with the
pending map as mutated by the code above it. -/
def replyRest (env : Env) (userMessage userId : String) (pend : PendingMap)
    (isNo : Bool) : ReplyOutcome :=
  if isNo && (lookupP pend userId).isSome then
    { reply := some "キャンセルしました。他に何かあれば聞いてください！",
      pending := delP pend userId, issueCalls := [], judgeCalls := 0,
      agentEvents := [], snapshotFetched := false, prompt := none }
  else
    if env.judgment.is_issue then
      match APP_REPO_MAP env.judgment.app_name with
      | some repo =>
        { reply := some env.judgment.confirm_message,
          pending := setP pend userId (mkPending env.judgment repo env.now),
          issueCalls := [], judgeCalls := 1, agentEvents := [],
          snapshotFetched := false, prompt := none }
      | none => agentPath env userMessage pend
    else
      agentPath env userMessage pend

/-- `generateReply(userMessage, userId)`: the yes/no confirmation gates,
then classification, then the Notion agent conversation. -/
def generateReply (env : Env) (userMessage userId : String) (pend : PendingMap) :
    ReplyOutcome :=
  let isYes := isYesMsg userMessage
  let isNo := isNoMsg userMessage
  match (if isYes then lookupP pend userId else none) with
  | some pending =>
    if env.now > pending.expires_at then
      replyRest env userMessage userId (delP pend userId) isNo
    else
      match env.createIssue pending.repo pending.issue_title pending.issue_body with
      | Except.ok issueUrl =>
        { reply := some ("Issue作成しました！\n\n" ++ issueUrl ++
            "\n\n中さんへの指示文はこちら↓\n\n" ++ pending.manus_instruction),
          pending := delP pend userId,
          issueCalls := [(pending.repo, pending.issue_title, pending.issue_body)],
          judgeCalls := 0, agentEvents := [], snapshotFetched := false,
          prompt := none }
      | Except.error e =>
        { reply := some ("Issueの作成に失敗しました。" ++ e),
          pending := delP pend userId,
          issueCalls := [(pending.repo, pending.issue_title, pending.issue_body)],
          judgeCalls := 0, agentEvents := [], snapshotFetched := false,
          prompt := none }
  | none => replyRest env userMessage userId pend isNo

/-! Concrete fixtures: small closed environments used to evaluate the
embedded code at specific inputs. -/

/-- A document store whose every call rejects (network failure). -/
def menvNetFail : MutatorEnv where
  pageId := "abc-123"
  appendFetch := fun _ => Except.error "network down"
  getBlockFetch := fun _ => Except.error "network down"
  patchFetch := fun _ _ _ => Except.error "network down"
  deleteFetch := fun _ => Except.error "network down"

/-- A document store where every call resolves, but the DELETE answers 404
(the target block does not exist). -/
def menv404 : MutatorEnv where
  pageId := "abc-123"
  appendFetch := fun _ => Except.ok ⟨200⟩
  getBlockFetch := fun _ => Except.ok ⟨some "paragraph"⟩
  patchFetch := fun _ _ _ => Except.ok ⟨200⟩
  deleteFetch := fun _ => Except.ok ⟨404⟩

/-- A delete-tool input naming a block absent from the store. -/
def inputDel : ToolInput := { block_id := "no-such-block" }

/-- A classifier verdict: not a fix request. -/
def jdgFalse : Judgment := { is_issue := false }

/-- A classifier verdict: actionable request against モノハブ. -/
def jdgMono : Judgment where
  is_issue := true
  app_name := "モノハブ"
  issue_title := "ボタン修正"
  issue_body := "詳細説明"
  manus_instruction := "修正指示"
  confirm_message := "GitHubにIssueを作成しますか？"

/-- A terminal model response carrying only text. -/
def respEnd : ModelResponse := ⟨"end_turn", [ContentBlock.text "done"]⟩

/-- A tool-use model response requesting one delete, with a trailing text
segment. -/
def respTool : ModelResponse :=
  ⟨"tool_use", [ContentBlock.toolUse "t1" "delete_block" { block_id := "b1" },
    ContentBlock.text "thinking"]⟩

/-- A stored proposal that expired at time 5. -/
def pOldFix : PendingIssue := ⟨"モノハブ", "monohub", "古い題", "古い本文", "古い指示", 5⟩

/-- A pending map holding that proposal for `user1`. -/
def pendFix : PendingMap := [("user1", pOldFix)]

/-- A turn at time 1000000 (so `pOldFix` is long expired) whose classifier
says "not an issue". -/
def envExpired : Env where
  now := 1000000
  judgment := jdgFalse
  createIssue := fun _ _ _ => Except.error "unreachable"
  pages := [⟨[], false⟩]
  responses := [respEnd]
  menv := menv404

/-- A turn at time 3 (so `pOldFix` is still valid) whose issue creation
succeeds. -/
def envFresh : Env where
  now := 3
  judgment := jdgFalse
  createIssue := fun repo _ _ =>
    Except.ok ("https://github.com/marutamura/" ++ repo ++ "/issues/1")
  pages := [⟨[], false⟩]
  responses := [respEnd]
  menv := menv404

/-- A turn at time 3 whose issue creation fails with an API error. -/
def envFreshFail : Env where
  now := 3
  judgment := jdgFalse
  createIssue := fun _ _ _ => Except.error "GitHub API error: forbidden"
  pages := [⟨[], false⟩]
  responses := [respEnd]
  menv := menv404

/-- A turn at time 100 whose classifier extracts the モノハブ proposal. -/
def envClassify : Env where
  now := 100
  judgment := jdgMono
  createIssue := fun _ _ _ => Except.error "unreachable"
  pages := [⟨[], false⟩]
  responses := [respEnd]
  menv := menv404

/-- A two-page listing: two blocks then one block. -/
def pagesFix : List Page :=
  [⟨[⟨"b1", "paragraph", false, some ["x", "y"]⟩,
     ⟨"b2", "to_do", true, some ["z"]⟩], true⟩,
   ⟨[⟨"b3", "divider", false, none⟩], false⟩]

/-! Helper lemmas about the pending map, pagination, and string joining. -/

theorem lookupP_setP_self (m : PendingMap) (u : String) (v : PendingIssue) :
    lookupP (setP m u v) u = some v := by
  induction m with
  | nil => simp [setP, lookupP]
  | cons kv rest ih =>
    obtain ⟨k, w⟩ := kv
    by_cases h : k = u
    · simp [setP, lookupP, h]
    · simp [setP, lookupP, h, ih]

theorem mem_keys_setP (m : PendingMap) (u x : String) (v : PendingIssue) :
    x ∈ (setP m u v).map Prod.fst ↔ x ∈ m.map Prod.fst ∨ x = u := by
  induction m with
  | nil => simp [setP]
  | cons kv rest ih =>
    obtain ⟨k, w⟩ := kv
    by_cases h : k = u
    · subst h
      simp [setP]
      tauto
    · simp [setP, h, ih]
      tauto

theorem keysNodup_setP (m : PendingMap) (u : String) (v : PendingIssue)
    (h : keysNodup m) : keysNodup (setP m u v) := by
  induction m with
  | nil => simp [setP, keysNodup]
  | cons kv rest ih =>
    obtain ⟨k, w⟩ := kv
    rw [keysNodup, List.map_cons, List.nodup_cons] at h
    by_cases hk : k = u
    · subst hk
      rw [keysNodup]
      simp only [setP, eq_self_iff_true, if_true, List.map_cons, List.nodup_cons]
      exact h
    · have hrest := ih h.2
      rw [keysNodup]
      simp only [setP, hk, if_false, List.map_cons, List.nodup_cons]
      refine ⟨?_, hrest⟩
      intro hmem
      rcases (mem_keys_setP rest u k v).mp hmem with hin | heq
      · exact h.1 hin
      · exact hk heq

theorem delP_sublist (m : PendingMap) (u : String) : List.Sublist (delP m u) m := by
  induction m with
  | nil => simp [delP]
  | cons kv rest ih =>
    obtain ⟨k, w⟩ := kv
    by_cases h : k = u
    · simp only [delP, h, if_true]
      exact List.sublist_cons_self _ _
    · simp only [delP, h, if_false]
      exact List.Sublist.cons₂ _ ih

theorem keysNodup_delP (m : PendingMap) (u : String) (h : keysNodup m) :
    keysNodup (delP m u) :=
  List.Nodup.sublist (List.Sublist.map Prod.fst (delP_sublist m u)) h

theorem lookupP_eq_none_of_not_mem (m : PendingMap) (u : String)
    (h : u ∉ m.map Prod.fst) : lookupP m u = none := by
  induction m with
  | nil => rfl
  | cons kv rest ih =>
    obtain ⟨k, w⟩ := kv
    simp only [List.map_cons, List.mem_cons, not_or] at h
    have hk : k ≠ u := fun hh => h.1 hh.symm
    simp [lookupP, hk, ih h.2]

theorem lookupP_delP_self (m : PendingMap) (u : String) (h : keysNodup m) :
    lookupP (delP m u) u = none := by
  induction m with
  | nil => rfl
  | cons kv rest ih =>
    obtain ⟨k, w⟩ := kv
    rw [keysNodup, List.map_cons, List.nodup_cons] at h
    by_cases hk : k = u
    · subst hk
      simp only [delP, if_true]
      exact lookupP_eq_none_of_not_mem rest k h.1
    · simp [delP, lookupP, hk, ih h.2]

theorem intercalate_go_append (s : String) (as : List String) :
    ∀ p q : String, String.intercalate.go (p ++ q) s as =
      p ++ String.intercalate.go q s as := by
  induction as with
  | nil => intro p q; rfl
  | cons a as ih =>
    intro p q
    show String.intercalate.go (p ++ q ++ s ++ a) s as =
      p ++ String.intercalate.go (q ++ s ++ a) s as
    rw [String.append_assoc (p ++ q) s a, String.append_assoc p q (s ++ a),
      ← String.append_assoc q s a]
    exact ih p (q ++ s ++ a)

theorem intercalate_cons (s a : String) (as : List String) (h : as ≠ []) :
    String.intercalate s (a :: as) = a ++ s ++ String.intercalate s as := by
  cases as with
  | nil => exact absurd rfl h
  | cons b bs =>
    show String.intercalate.go (a ++ s ++ b) s bs = _
    rw [String.append_assoc a s b, intercalate_go_append s bs a (s ++ b)]
    show a ++ String.intercalate.go (s ++ b) s bs = _
    rw [intercalate_go_append s bs s b]
    rw [← String.append_assoc a s (String.intercalate.go b s bs)]
    rfl

theorem agentPath_pending (env : Env) (m : String) (pd : PendingMap) :
    (agentPath env m pd).pending = pd := by
  rcases h : env.responses with _ | ⟨r, rest⟩ <;> simp [agentPath, h]

theorem agentPath_issueCalls (env : Env) (m : String) (pd : PendingMap) :
    (agentPath env m pd).issueCalls = [] := by
  rcases h : env.responses with _ | ⟨r, rest⟩ <;> simp [agentPath, h]

theorem obs_agentPath (env : Env) (m : String) (pd pd' : PendingMap) :
    obs (agentPath env m pd) = obs (agentPath env m pd') := by
  rcases h : env.responses with _ | ⟨r, rest⟩ <;> simp [agentPath, h, obs]

theorem replyRest_issueCalls (env : Env) (m u : String) (pd : PendingMap) (b : Bool) :
    (replyRest env m u pd b).issueCalls = [] := by
  rw [replyRest]
  split
  · rfl
  · split
    · split
      · rfl
      · exact agentPath_issueCalls env m pd
    · exact agentPath_issueCalls env m pd

theorem keysNodup_replyRest (env : Env) (m u : String) (pd : PendingMap) (b : Bool)
    (h : keysNodup pd) : keysNodup (replyRest env m u pd b).pending := by
  rw [replyRest]
  split
  · exact keysNodup_delP pd u h
  · split
    · split
      · exact keysNodup_setP pd u _ h
      · rw [agentPath_pending]
        exact h
    · rw [agentPath_pending]
      exact h

theorem generateReply_no_yes (env : Env) (msg uid : String) (pend : PendingMap)
    (hy : isYesMsg msg = false) :
    generateReply env msg uid pend = replyRest env msg uid pend (isNoMsg msg) := by
  simp [generateReply, hy]

theorem generateReply_yes_nopending (env : Env) (msg uid : String) (pend : PendingMap)
    (hy : isYesMsg msg = true) (hp : lookupP pend uid = none) :
    generateReply env msg uid pend = replyRest env msg uid pend (isNoMsg msg) := by
  simp [generateReply, hy, hp]

theorem generateReply_yes_expired (env : Env) (msg uid : String) (pend : PendingMap)
    (p : PendingIssue) (hy : isYesMsg msg = true) (hp : lookupP pend uid = some p)
    (he : env.now > p.expires_at) :
    generateReply env msg uid pend =
      replyRest env msg uid (delP pend uid) (isNoMsg msg) := by
  simp [generateReply, hy, hp, he]

/-- C1 (amended): inside `executeTool`, every *thrown* failure of the three
document-mutation tools — i.e. a rejected fetch, such as a network failure
— is caught and returned as the human-readable string `エラー: <message>`,
never propagated; but whenever the underlying fetches resolve, the success
message is returned regardless of HTTP status, because none of
`appendBlocks`/`updateBlock`/`deleteBlock` inspects the response. -/
theorem c1_exec_errors_caught (env : MutatorEnv) (input : ToolInput) :
    (∀ e, env.appendFetch input.texts = Except.error e →
       executeTool env "append_to_page" input = "エラー: " ++ e)
  ∧ (∀ r, env.appendFetch input.texts = Except.ok r →
       executeTool env "append_to_page" input =
         "追加完了。ページURL: " ++ getPageUrl env.pageId)
  ∧ (∀ e, env.getBlockFetch input.block_id = Except.error e →
       executeTool env "update_block" input = "エラー: " ++ e)
  ∧ (∀ b e, env.getBlockFetch input.block_id = Except.ok b →
       env.patchFetch input.block_id b.type input.text = Except.error e →
       executeTool env "update_block" input = "エラー: " ++ e)
  ∧ (∀ b r, env.getBlockFetch input.block_id = Except.ok b →
       env.patchFetch input.block_id b.type input.text = Except.ok r →
       executeTool env "update_block" input =
         "更新完了。ページURL: " ++ getPageUrl env.pageId)
  ∧ (∀ e, env.deleteFetch input.block_id = Except.error e →
       executeTool env "delete_block" input = "エラー: " ++ e)
  ∧ (∀ r, env.deleteFetch input.block_id = Except.ok r →
       executeTool env "delete_block" input =
         "削除完了。ページURL: " ++ getPageUrl env.pageId) := by
  refine ⟨?_, ?_, ?_, ?_, ?_, ?_, ?_⟩ <;> intros <;>
    simp_all [executeTool, executeToolTry, appendBlocks, updateBlock, deleteBlock,
      Except.map, bind, Except.bind, pure, Except.pure]

/-- C1 counterexample: the claim says a delete of a non-existent unit
yields a failure result; but when the store answers the DELETE with a
resolved 404 response (`menv404`), `deleteBlock` never checks the status,
so `executeTool` returns the *success* message. -/
theorem c1_cex_delete_missing_succeeds :
    executeTool menv404 "delete_block" inputDel =
      "削除完了。ページURL: https://www.notion.so/abc123" := by
  decide

/-- C1 witness: a concrete network failure on delete is caught and turned
into the error string. -/
theorem c1_witness :
    executeTool menvNetFail "delete_block" inputDel = "エラー: " ++ "network down" :=
  (c1_exec_errors_caught menvNetFail inputDel).2.2.2.2.2.1 "network down" rfl

/-- C8: for every well-formed paginated listing, `fetchAllBlocks` follows
the continuation to exhaustion and returns the concatenation of the pages'
converted results in page order, so its length is the sum of the page
lengths. -/
theorem c8_pagination_complete (pages : List Page) (h : wellPaged pages = true) :
    fetchAllBlocks pages = (pages.map fun p => p.results.map blockToText).flatten
  ∧ (fetchAllBlocks pages).length = (pages.map fun p => p.results.length).sum := by
  have key : ∀ ps : List Page, wellPaged ps = true →
      fetchAllBlocks ps = (ps.map fun p => p.results.map blockToText).flatten := by
    intro ps
    induction ps with
    | nil => intro hh; simp [wellPaged] at hh
    | cons p rest ih =>
      intro hh
      rw [wellPaged] at hh
      cases rest with
      | nil =>
        simp only [List.isEmpty_nil, if_true, Bool.not_eq_true'] at hh
        simp [fetchAllBlocks, hh]
      | cons q rs =>
        simp only [List.isEmpty_cons, Bool.false_eq_true, if_false,
          Bool.and_eq_true] at hh
        rw [fetchAllBlocks, hh.1, ih hh.2]
        simp
  refine ⟨key pages h, ?_⟩
  rw [key pages h]
  simp [List.length_flatten, List.map_map, Function.comp_def]

/-- C8 witness: a concrete two-page listing is flattened completely and in
order. -/
theorem c8_witness :
    wellPaged pagesFix = true
  ∧ fetchAllBlocks pagesFix = (pagesFix.map fun p => p.results.map blockToText).flatten
  ∧ (fetchAllBlocks pagesFix).length = (pagesFix.map fun p => p.results.length).sum :=
  ⟨by decide, (c8_pagination_complete pagesFix (by decide)).1,
    (c8_pagination_complete pagesFix (by decide)).2⟩

/-- C9: `formatBlocksForPrompt` is a pure function of the snapshot alone;
the empty snapshot renders the fixed sentinel, and a non-empty snapshot
renders exactly one `[id] (kind) text` line per unit, in snapshot order,
joined by newlines. -/
theorem c9_format_lines :
    formatBlocksForPrompt [] = "(ページは空です)"
  ∧ (∀ b : NotionBlock, formatBlocksForPrompt [b] = lineOf b)
  ∧ (∀ b bs, bs ≠ [] →
      formatBlocksForPrompt (b :: bs) = lineOf b ++ "\n" ++ formatBlocksForPrompt bs) := by
  refine ⟨rfl, fun b => rfl, fun b bs h => ?_⟩
  obtain ⟨c, cs, rfl⟩ : ∃ c cs, bs = c :: cs := by
    cases bs with
    | nil => exact absurd rfl h
    | cons c cs => exact ⟨c, cs, rfl⟩
  simp only [formatBlocksForPrompt, List.length_cons, List.map_cons,
    Nat.succ_ne_zero, if_false]
  rw [intercalate_cons "\n" (lineOf b) (lineOf c :: cs.map lineOf) (by simp)]

/-- C9 witness: a concrete two-block snapshot renders as two lines. -/
theorem c9_witness :
    formatBlocksForPrompt [⟨"a", "paragraph", "hi"⟩, ⟨"b", "divider", "---"⟩] =
      "[a] (paragraph) hi\n[b] (divider) ---" := by
  rw [c9_format_lines.2.2 ⟨"a", "paragraph", "hi"⟩ [⟨"b", "divider", "---"⟩] (by decide)]
  decide

/-- C2 counterexample: the claim says that for *every* inbound message an
expired stored proposal is deleted; but for a neutral message (matching
neither pattern list) the expiry check is never reached, so after the turn
the expired proposal is still stored untouched. -/
theorem c2_cex_expired_not_deleted :
    lookupP (generateReply envExpired "こんにちは" "user1" pendFix).pending "user1" =
      some pOldFix := by
  decide

/-- C2 (amended): with an expired stored proposal, no issue-filing call
happens for any inbound message; and when the message matches an
affirmative token, the whole turn is identical to running the same message
with the proposal deleted — the proposal is removed and the message falls
through to ordinary classification / Agent Loop handling. -/
theorem c2_expired_never_committed (env : Env) (msg uid : String) (pend : PendingMap)
    (p : PendingIssue) (hn : keysNodup pend) (hp : lookupP pend uid = some p)
    (he : env.now > p.expires_at) :
    (generateReply env msg uid pend).issueCalls = []
  ∧ (isYesMsg msg = true →
      generateReply env msg uid pend = generateReply env msg uid (delP pend uid)) := by
  constructor
  · cases hy : isYesMsg msg with
    | false => rw [generateReply_no_yes env msg uid pend hy, replyRest_issueCalls]
    | true =>
      rw [generateReply_yes_expired env msg uid pend p hy hp he, replyRest_issueCalls]
  · intro hy
    rw [generateReply_yes_expired env msg uid pend p hy hp he,
      generateReply_yes_nopending env msg uid (delP pend uid) hy
        (lookupP_delP_self pend uid hn)]

/-- C2 witness: the affirmative message はい against the long-expired
proposal files nothing and behaves exactly as with no proposal stored. -/
theorem c2_witness :
    (generateReply envExpired "はい" "user1" pendFix).issueCalls = []
  ∧ (isYesMsg "はい" = true →
      generateReply envExpired "はい" "user1" pendFix =
        generateReply envExpired "はい" "user1" (delP pendFix "user1")) :=
  c2_expired_never_committed envExpired "はい" "user1" pendFix pOldFix
    (by decide) (by decide) (by decide)

/-- C3: an affirmative message with a stored, unexpired proposal makes
exactly one issue-filing call with the stored repository/title/body; on
success the reply embeds the created URL and the stored instruction, on
failure an error reply is returned; in both cases the proposal is gone
from the store afterward. -/
theorem c3_commit_exactly_once (env : Env) (msg uid : String) (pend : PendingMap)
    (p : PendingIssue) (hy : isYesMsg msg = true) (hn : keysNodup pend)
    (hp : lookupP pend uid = some p) (he : ¬ env.now > p.expires_at) :
    (generateReply env msg uid pend).issueCalls = [(p.repo, p.issue_title, p.issue_body)]
  ∧ lookupP (generateReply env msg uid pend).pending uid = none
  ∧ (∀ url, env.createIssue p.repo p.issue_title p.issue_body = Except.ok url →
      (generateReply env msg uid pend).reply =
        some ("Issue作成しました！\n\n" ++ url ++
          "\n\n中さんへの指示文はこちら↓\n\n" ++ p.manus_instruction))
  ∧ (∀ e, env.createIssue p.repo p.issue_title p.issue_body = Except.error e →
      (generateReply env msg uid pend).reply =
        some ("Issueの作成に失敗しました。" ++ e)) := by
  rcases hc : env.createIssue p.repo p.issue_title p.issue_body with e | url <;>
    refine ⟨?_, ?_, ?_, ?_⟩ <;>
      simp [generateReply, hy, hp, he, hc, lookupP_delP_self pend uid hn]

/-- C3 witness: はい with the fresh `pOldFix` proposal files exactly one
monohub issue; the successful reply carries the URL and instruction, and
the proposal is gone. -/
theorem c3_witness :
    (generateReply envFresh "はい" "user1" pendFix).issueCalls =
      [("monohub", "古い題", "古い本文")]
  ∧ lookupP (generateReply envFresh "はい" "user1" pendFix).pending "user1" = none
  ∧ (∀ url, envFresh.createIssue "monohub" "古い題" "古い本文" = Except.ok url →
      (generateReply envFresh "はい" "user1" pendFix).reply =
        some ("Issue作成しました！\n\n" ++ url ++
          "\n\n中さんへの指示文はこちら↓\n\n" ++ "古い指示"))
  ∧ (∀ e, envFresh.createIssue "monohub" "古い題" "古い本文" = Except.error e →
      (generateReply envFresh "はい" "user1" pendFix).reply =
        some ("Issueの作成に失敗しました。" ++ e)) :=
  c3_commit_exactly_once envFresh "はい" "user1" pendFix pOldFix
    (by decide) (by decide) (by decide) (by decide)

/-- C10: when a message matches both an affirmative and a negative token
while an unexpired proposal is stored, the affirmative branch wins: the
issue is filed (successfully or not), the reply is the commit-path reply,
and the proposal is consumed — the cancel path is never taken. -/
theorem c10_affirmative_wins (env : Env) (msg uid : String) (pend : PendingMap)
    (p : PendingIssue) (hy : isYesMsg msg = true) (hno : isNoMsg msg = true)
    (hn : keysNodup pend) (hp : lookupP pend uid = some p)
    (he : ¬ env.now > p.expires_at) :
    (generateReply env msg uid pend).issueCalls = [(p.repo, p.issue_title, p.issue_body)]
  ∧ lookupP (generateReply env msg uid pend).pending uid = none
  ∧ ((∃ url, env.createIssue p.repo p.issue_title p.issue_body = Except.ok url ∧
       (generateReply env msg uid pend).reply =
         some ("Issue作成しました！\n\n" ++ url ++
           "\n\n中さんへの指示文はこちら↓\n\n" ++ p.manus_instruction)) ∨
     (∃ e, env.createIssue p.repo p.issue_title p.issue_body = Except.error e ∧
       (generateReply env msg uid pend).reply =
         some ("Issueの作成に失敗しました。" ++ e))) := by
  rcases hc : env.createIssue p.repo p.issue_title p.issue_body with e | url
  · exact ⟨by simp [generateReply, hy, hp, he, hc],
      by simp [generateReply, hy, hp, he, hc, lookupP_delP_self pend uid hn],
      Or.inr ⟨e, rfl, by simp [generateReply, hy, hp, he, hc]⟩⟩
  · exact ⟨by simp [generateReply, hy, hp, he, hc],
      by simp [generateReply, hy, hp, he, hc, lookupP_delP_self pend uid hn],
      Or.inl ⟨url, rfl, by simp [generateReply, hy, hp, he, hc]⟩⟩

/-- C10 witness: はい、キャンセルしないで matches both pattern lists; the
issue-filing call still happens (and here fails), and the reply is the
commit-path error reply, not the cancellation acknowledgment. -/
theorem c10_witness :
    (generateReply envFreshFail "はい、キャンセルしないで" "user1" pendFix).issueCalls =
      [("monohub", "古い題", "古い本文")]
  ∧ lookupP (generateReply envFreshFail "はい、キャンセルしないで" "user1"
      pendFix).pending "user1" = none
  ∧ ((∃ url, envFreshFail.createIssue "monohub" "古い題" "古い本文" = Except.ok url ∧
       (generateReply envFreshFail "はい、キャンセルしないで" "user1" pendFix).reply =
         some ("Issue作成しました！\n\n" ++ url ++
           "\n\n中さんへの指示文はこちら↓\n\n" ++ "古い指示")) ∨
     (∃ e, envFreshFail.createIssue "monohub" "古い題" "古い本文" = Except.error e ∧
       (generateReply envFreshFail "はい、キャンセルしないで" "user1" pendFix).reply =
         some ("Issueの作成に失敗しました。" ++ e))) :=
  c10_affirmative_wins envFreshFail "はい、キャンセルしないで" "user1" pendFix pOldFix
    (by decide) (by decide) (by decide) (by decide) (by decide)

/-- C4: the pending store keeps at most one proposal per user — a turn
preserves key uniqueness of the store — and when a neutral message is
classified as actionable with a registered target, the stored proposal for
that user afterwards is the freshly built one, silently replacing any
prior proposal. -/
theorem c4_at_most_one_overwrites :
    (∀ (env : Env) (msg uid : String) (pend : PendingMap), keysNodup pend →
       keysNodup (generateReply env msg uid pend).pending)
  ∧ (∀ (env : Env) (msg uid : String) (pend : PendingMap) (oldP : PendingIssue),
       isYesMsg msg = false → isNoMsg msg = false →
       lookupP pend uid = some oldP →
       env.judgment.is_issue = true →
       ∀ repo, APP_REPO_MAP env.judgment.app_name = some repo →
       lookupP (generateReply env msg uid pend).pending uid =
         some (mkPending env.judgment repo env.now)) := by
  constructor
  · intro env msg uid pend hn
    cases hy : isYesMsg msg with
    | false =>
      rw [generateReply_no_yes env msg uid pend hy]
      exact keysNodup_replyRest _ _ _ _ _ hn
    | true =>
      rcases hp : lookupP pend uid with _ | p
      · rw [generateReply_yes_nopending env msg uid pend hy hp]
        exact keysNodup_replyRest _ _ _ _ _ hn
      · by_cases he : env.now > p.expires_at
        · rw [generateReply_yes_expired env msg uid pend p hy hp he]
          exact keysNodup_replyRest _ _ _ _ _ (keysNodup_delP pend uid hn)
        · have hpend : (generateReply env msg uid pend).pending = delP pend uid := by
            rcases hc : env.createIssue p.repo p.issue_title p.issue_body with e | url <;>
              simp [generateReply, hy, hp, he, hc]
          rw [hpend]
          exact keysNodup_delP pend uid hn
  · intro env msg uid pend oldP hy hno hp hj repo hr
    rw [generateReply_no_yes env msg uid pend hy]
    simp [replyRest, hno, hj, hr, lookupP_setP_self]

/-- C4 witness: with the モノハブ verdict, the turn keeps keys unique and
the stored proposal for user1 is the new one built at time 100, not the
old one. -/
theorem c4_witness :
    keysNodup (generateReply envClassify "ボタンがおかしい" "user1" pendFix).pending
  ∧ lookupP (generateReply envClassify "ボタンがおかしい" "user1" pendFix).pending
      "user1" = some (mkPending jdgMono "monohub" 100) :=
  ⟨c4_at_most_one_overwrites.1 envClassify "ボタンがおかしい" "user1" pendFix
      (by decide),
    c4_at_most_one_overwrites.2 envClassify "ボタンがおかしい" "user1" pendFix pOldFix
      (by decide) (by decide) (by decide) (by decide) "monohub" (by decide)⟩

/-- C5 counterexample: the claim says the pending proposal remains
untouched for a message matching neither pattern list; but when that
neutral message itself is classified as a new actionable request, the
stored proposal is replaced — after the turn the old proposal is no longer
stored. -/
theorem c5_cex_neutral_overwrites :
    lookupP (generateReply envClassify "モノハブのボタンがおかしい" "user1"
        pendFix).pending "user1" ≠ some pOldFix := by
  decide

/-- C5 (amended): a message matching neither an affirmative nor a negative
token is handled exactly as if no proposal were pending — the reply and
every external call are identical to the run with the user's entry deleted
— and the stored proposal survives untouched unless the message itself is
classified actionable with a registered target, in which case it is
replaced by the new proposal. -/
theorem c5_neutral_as_if_absent (env : Env) (msg uid : String) (pend : PendingMap)
    (hy : isYesMsg msg = false) (hno : isNoMsg msg = false) :
    obs (generateReply env msg uid pend) = obs (generateReply env msg uid (delP pend uid))
  ∧ (env.judgment.is_issue = true → ∀ repo,
      APP_REPO_MAP env.judgment.app_name = some repo →
      (generateReply env msg uid pend).pending =
        setP pend uid (mkPending env.judgment repo env.now))
  ∧ ((env.judgment.is_issue = false ∨ APP_REPO_MAP env.judgment.app_name = none) →
      (generateReply env msg uid pend).pending = pend) := by
  rw [generateReply_no_yes env msg uid pend hy,
    generateReply_no_yes env msg uid (delP pend uid) hy]
  refine ⟨?_, ?_, ?_⟩
  · simp only [replyRest, hno, Bool.false_and, Bool.false_eq_true, if_false]
    cases hj : env.judgment.is_issue
    · simp only [Bool.false_eq_true, if_false]
      exact obs_agentPath env msg pend (delP pend uid)
    · simp only [if_true]
      rcases hr : APP_REPO_MAP env.judgment.app_name with _ | repo
      · exact obs_agentPath env msg pend (delP pend uid)
      · rfl
  · intro hj repo hr
    simp [replyRest, hno, hj, hr]
  · intro h
    rcases h with hj | hr
    · simp [replyRest, hno, hj, agentPath_pending]
    · cases hj : env.judgment.is_issue <;>
        simp [replyRest, hno, hj, hr, agentPath_pending]

/-- C5 witness: a neutral message with a pending proposal behaves exactly
as with the proposal absent, and (here, with an actionable verdict) the
store afterwards holds the replacement proposal. -/
theorem c5_witness :
    obs (generateReply envClassify "ボタンが変" "user1" pendFix) =
      obs (generateReply envClassify "ボタンが変" "user1" (delP pendFix "user1"))
  ∧ (envClassify.judgment.is_issue = true → ∀ repo,
      APP_REPO_MAP envClassify.judgment.app_name = some repo →
      (generateReply envClassify "ボタンが変" "user1" pendFix).pending =
        setP pendFix "user1" (mkPending envClassify.judgment repo envClassify.now))
  ∧ ((envClassify.judgment.is_issue = false ∨
        APP_REPO_MAP envClassify.judgment.app_name = none) →
      (generateReply envClassify "ボタンが変" "user1" pendFix).pending = pendFix) :=
  c5_neutral_as_if_absent envClassify "ボタンが変" "user1" pendFix (by decide) (by decide)

/-- C6: whenever a model response signals tool use, the event trace of the
loop starts with the execution of every requested operation, one per
tool-use block and in the order the model emitted them, followed by the
next model call — nothing else is interleaved before that call. -/
theorem c6_tools_in_order_before_next_call (menv : MutatorEnv) (r : ModelResponse)
    (rest : List ModelResponse) (h : r.stop_reason = "tool_use") :
    ∃ tail, (agentLoop menv r rest).2 =
      ((toolUseBlocks r.content).map (execEventOf menv)) ++
        AgentEvent.modelCall :: tail := by
  cases rest with
  | nil =>
    refine ⟨[], ?_⟩
    rw [agentLoop]
    simp [h]
  | cons r2 rest2 =>
    refine ⟨(agentLoop menv r2 rest2).2, ?_⟩
    rw [agentLoop]
    simp [h]

/-- C6 witness: the concrete tool-use response executes its delete before
the follow-up model call. -/
theorem c6_witness :
    ∃ tail, (agentLoop menv404 respTool [respEnd]).2 =
      ((toolUseBlocks respTool.content).map (execEventOf menv404)) ++
        AgentEvent.modelCall :: tail :=
  c6_tools_in_order_before_next_call menv404 respTool [respEnd] (by decide)

/-- C7: a model response whose stop indicator is not `tool_use` ends the
loop in that very round, with no tool executions and no further model
calls, and the final answer is the first text segment of that response,
verbatim. -/
theorem c7_single_round_verbatim (menv : MutatorEnv) (r : ModelResponse)
    (rest : List ModelResponse) (t : String)
    (h1 : r.stop_reason ≠ "tool_use")
    (h2 : r.content.find? isTextBlock = some (ContentBlock.text t)) :
    agentLoop menv r rest = (some t, []) := by
  rw [agentLoop, if_neg h1]
  simp [extractAnswer, h2]

/-- C7 witness: the terminal response yields exactly its text with an
empty event trace. -/
theorem c7_witness : agentLoop menv404 respEnd [] = (some "done", []) :=
  c7_single_round_verbatim menv404 respEnd [] "done" (by decide) (by decide)
